import Mathlib

/-!
Shallow embedding of the bedlam interpreter (src/interpret.py) in Lean 4.

The interpreter is a tree-walking evaluator over AST nodes produced by the
front end (src/parse.py).  Nodes are Python dicts with keys type / value /
location; values are ordinary Python values (ints, floats, strings, bools,
None, lists, dicts, functions); scopes are mutable dicts chained through a
parent pointer, and closures capture a reference to the scope chain.

The embedding makes the mutation explicit:
  * a `Heap` is the list of scope frames allocated so far; a context is the
    index of a frame in the heap (parent pointers always point to frames
    allocated earlier, mirroring Python reference semantics);
  * Python exceptions become the `Err` sum: `interpErr` for InterpeterError
    (message plus the offending node's location), `hostErr` for Python-level
    failures such as IndexError / UnboundLocalError / TypeError, and `ret`
    for the InterpreterReturn control signal raised by `exit`;
  * the evaluator is fueled (structural recursion on a `Nat` depth bound);
    `fuelErr` is a model artifact with no Python counterpart — theorems are
    stated at sufficient fuel;
  * Python floats are idealised as exact rationals (`Rat`); no claim in this
    development depends on floating-point rounding.
-/

set_option maxHeartbeats 1000000

namespace Bedlam

/-- Source locations, as stored in node['location'] by parse.py. -/
structure Loc where
  line : Nat
  column : Nat
deriving DecidableEq

/-- Node tags: the keys of the `_handlers` dispatch dict in interpret.py. -/
inductive Tag : Type where
  | call
  | identifier
  | any
  | int
  | float
  | string
  | vec
  | map
deriving DecidableEq

/-- The builtin functions registered into `_builtins` (interpret.py 152-392),
in source order.  `true` / `false` / `nil` are data constants, not listed here. -/
inductive Builtin : Type where
  | defnB
  | fnB
  | partB
  | applyB
  | mapB
  | filterB
  | reduceB
  | letB
  | ifB
  | whenB
  | caseB
  | exitB
  | joinB
  | notB
  | addB
  | subB
  | mulB
  | divB
  | gtB
  | ltB
  | eqB
  | orB
  | andB
  | nthB
  | sliceB
deriving DecidableEq

mutual

/-- Runtime values.  Python: int, float (idealised as Rat), str, bool, None,
list, dict, and the three kinds of function values that can appear in a scope:
closures made by `fn` (capturing the params node list, the body node, the
defining context and the defining `fn` call node), the functions returned by
`partial` (capturing the `partial` call node, the wrapped fn expression, the
fixed argument nodes and the defining context), and the native builtins. -/
inductive Val : Type where
  | vint (n : Int)
  | vfloat (q : Rat)
  | vstr (s : String)
  | vbool (b : Bool)
  | vnil
  | vlist (xs : List Val)
  | vdict (kvs : List (Val × Val))
  | closure (params : List Node) (body : Node) (defCtx : Nat) (defNode : Node)
  | partialApp (defNode : Node) (fnExpr : Node) (fixed : List Node) (defCtx : Nat)
  | builtin (b : Builtin)

/-- A node's `value` field.  For literals it is a scalar, for call / vec / map
a list of child nodes, and for nodes produced by `wrap` it may be an
already-computed runtime value (`pval`, used with the `any` tag and by
`reduce`'s accumulator re-wrapping). -/
inductive Payload : Type where
  | pint (n : Int)
  | pfloat (q : Rat)
  | pstr (s : String)
  | pnodes (ns : List Node)
  | pval (v : Val)

/-- An AST node: the dict `\x7b'type': ..., 'value': ..., 'location': ...\x7d`. -/
inductive Node : Type where
  | mk (tag : Tag) (value : Payload) (loc : Loc)

end

def Node.tag : Node → Tag
  | .mk t _ _ => t

def Node.value : Node → Payload
  | .mk _ p _ => p

def Node.loc : Node → Loc
  | .mk _ _ l => l

/-- The `wrap` helper (interpret.py 43-47): copy a node, replacing type and
value, keeping the location. -/
def wrap (n : Node) (t : Tag) (p : Payload) : Node :=
  .mk t p n.loc

/-- Exceptional outcomes of evaluation. -/
inductive Err : Type where
  | interpErr (msg : String) (line : Nat) (column : Nat)
  | hostErr (msg : String)
  | ret (v : Val)
  | fuelErr

/-- InterpeterError stores the message together with the node's location
(interpret.py 50-55). -/
def mkInterpErr (msg : String) (node : Node) : Err :=
  .interpErr msg node.loc.line node.loc.column

/-- A scope: Python dict from names to values, insertion-ordered with
overwrite-in-place on key collision.  The model restricts keys to strings;
this is the only key shape the interpreter's identifier lookups can observe
(a `defn` or `let` with a non-string name would create a binding no
identifier node can ever resolve — see the comments at those sites). -/
abbrev Scope := List (String × Val)

def scopeGet? : Scope → String → Option Val
  | [], _ => none
  | (k, v) :: rest, name => if k = name then some v else scopeGet? rest name

/-- Python dict assignment: overwrite in place if the key exists, else append. -/
def scopeSet : Scope → String → Val → Scope
  | [], k, v => [(k, v)]
  | (k2, v2) :: rest, k, v =>
    if k2 = k then (k2, v) :: rest else (k2, v2) :: scopeSet rest k v

/-- Python dict.update: set every entry of `t` into `s`, in order. -/
def scopeUpdate (s : Scope) (t : Scope) : Scope :=
  t.foldl (fun acc kv => scopeSet acc kv.1 kv.2) s

/-- A context frame: `\x7b'scope': ..., 'parent': ...\x7d` (interpret.py).
The parent is the heap index of an enclosing frame. -/
structure Frame where
  scope : Scope
  parent : Option Nat

abbrev Heap := List Frame

/-- Mutate the scope dict of the frame at index `i` (used by `defn`). -/
def heapModifyScope (h : Heap) (i : Nat) (f : Scope → Scope) : Heap :=
  match h.get? i with
  | none => h
  | some fr => h.set i ⟨f fr.scope, fr.parent⟩

abbrev Res (α : Type) : Type := Except Err (α × Heap)

/-- Python truthiness, as used by `if` / `when` / `filter` / `not` /
`any` / `all`. -/
def truthy : Val → Bool
  | .vint n => n ≠ 0
  | .vfloat q => q ≠ 0
  | .vstr s => s ≠ ""
  | .vbool b => b
  | .vnil => false
  | .vlist xs => !xs.isEmpty
  | .vdict kvs => !kvs.isEmpty
  | .closure _ _ _ _ => true
  | .partialApp _ _ _ _ => true
  | .builtin _ => true

/-- View a value as an int if Python would treat it as one (bool is an int
subclass). -/
def asIntLike? : Val → Option Int
  | .vint n => some n
  | .vbool b => some (if b then 1 else 0)
  | _ => none

/-- View a value as a number (int, float or bool). -/
def asNum? : Val → Option Rat
  | .vint n => some (mkRat n 1)
  | .vfloat q => some q
  | .vbool b => some (mkRat (if b then 1 else 0) 1)
  | _ => none

mutual

/-- Python `==` on the value universe, fueled (the fuel is the same model
artifact as the evaluator's: `none` means the depth bound ran out and the
evaluator turns it into `fuelErr`; Python == itself never fails).  Numbers
compare across int / float / bool (True == 1, 1 == 1.0); strings compare as
strings; lists compare pointwise; dicts compare as equal-sized key-value
mappings.  Function objects compare by identity in Python; the model has no
object identity and returns false for them (no claim compares functions). -/
def pyEqB : Nat → Val → Val → Option Bool
  | 0, _, _ => none
  | fuel + 1, a, b =>
    match a, b with
    | .vstr x, .vstr y => some (decide (x = y))
    | .vnil, .vnil => some true
    | .vlist xs, .vlist ys =>
      if xs.length = ys.length then pyEqListB fuel xs ys else some false
    | .vdict xs, .vdict ys =>
      if xs.length = ys.length then pyDictSubB fuel xs ys else some false
    | a, b =>
      match asNum? a, asNum? b with
      | some x, some y => some (decide (x = y))
      | _, _ => some false
termination_by structural f _ _ => f

def pyEqListB : Nat → List Val → List Val → Option Bool
  | 0, _, _ => none
  | _ + 1, [], [] => some true
  | fuel + 1, x :: xs, y :: ys =>
    match pyEqB fuel x y with
    | none => none
    | some false => some false
    | some true => pyEqListB fuel xs ys
  | _ + 1, _, _ => some false
termination_by structural f _ _ => f

def pyDictSubB : Nat → List (Val × Val) → List (Val × Val) → Option Bool
  | 0, _, _ => none
  | _ + 1, [], _ => some true
  | fuel + 1, (k, v) :: rest, ys =>
    match pyDictHasB fuel ys k v with
    | none => none
    | some false => some false
    | some true => pyDictSubB fuel rest ys
termination_by structural f _ _ => f

def pyDictHasB : Nat → List (Val × Val) → Val → Val → Option Bool
  | 0, _, _, _ => none
  | _ + 1, [], _, _ => some false
  | fuel + 1, (k2, v2) :: rest, k, v =>
    match pyEqB fuel k k2, pyEqB fuel v v2 with
    | none, _ => none
    | _, none => none
    | some true, some true => some true
    | _, _ => pyDictHasB fuel rest k v
termination_by structural f _ _ _ => f

end

/-- Python str() of a value, as used by `join`.  Exact for the scalar shapes;
the renderings of floats, containers and functions are model approximations
(no claim depends on them). -/
def pyStr : Val → String
  | .vint n => toString n
  | .vfloat q => toString q
  | .vstr s => s
  | .vbool b => if b then "True" else "False"
  | .vnil => "None"
  | .vlist _ => "[...]"
  | .vdict _ => "\x7b...\x7d"
  | .closure _ _ _ _ => "<function>"
  | .partialApp _ _ _ _ => "<function>"
  | .builtin _ => "<function>"

/-- Render a node payload for interpolation into an error message. -/
def payloadToMsg : Payload → String
  | .pint n => toString n
  | .pfloat q => toString q
  | .pstr s => s
  | .pnodes _ => "[...]"
  | .pval v => pyStr v

/-- Python `+` as reachable from `fn_plus`'s `sum` (interpret.py 315-317):
the fold starts from int 0, so only numbers can ever be added without a
TypeError. -/
def pyAdd (a b : Val) : Except Err Val :=
  match asIntLike? a, asIntLike? b with
  | some x, some y => .ok (.vint (x + y))
  | _, _ =>
    match asNum? a, asNum? b with
    | some x, some y => .ok (.vfloat (x + y))
    | _, _ => .error (.hostErr "TypeError: unsupported operand type(s) for +")

def pySum : List Val → Except Err Val :=
  fun vs => vs.foldlM pyAdd (.vint 0)

def pySub (a b : Val) : Except Err Val :=
  match asIntLike? a, asIntLike? b with
  | some x, some y => .ok (.vint (x - y))
  | _, _ =>
    match asNum? a, asNum? b with
    | some x, some y => .ok (.vfloat (x - y))
    | _, _ => .error (.hostErr "TypeError: unsupported operand type(s) for -")

/-- Python `*` as used by `fn_multiply`: numbers multiply; an int (or bool)
times a string or list repeats it. -/
def pyMul (a b : Val) : Except Err Val :=
  match asIntLike? a, asIntLike? b with
  | some x, some y => .ok (.vint (x * y))
  | _, _ =>
    match asNum? a, asNum? b with
    | some x, some y => .ok (.vfloat (x * y))
    | _, _ =>
      match a, b with
      | .vint n, .vstr s => .ok (.vstr (String.join (List.replicate n.toNat s)))
      | .vstr s, .vint n => .ok (.vstr (String.join (List.replicate n.toNat s)))
      | .vbool bb, .vstr s => .ok (.vstr (String.join (List.replicate (if bb then 1 else 0) s)))
      | .vstr s, .vbool bb => .ok (.vstr (String.join (List.replicate (if bb then 1 else 0) s)))
      | .vint n, .vlist xs => .ok (.vlist (List.flatten (List.replicate n.toNat xs)))
      | .vlist xs, .vint n => .ok (.vlist (List.flatten (List.replicate n.toNat xs)))
      | .vbool bb, .vlist xs => .ok (.vlist (List.flatten (List.replicate (if bb then 1 else 0) xs)))
      | .vlist xs, .vbool bb => .ok (.vlist (List.flatten (List.replicate (if bb then 1 else 0) xs)))
      | _, _ => .error (.hostErr "TypeError: unsupported operand type(s) for *")

/-- Python true division (the zero check is done by the caller, fn_divide). -/
def pyDiv (a b : Val) : Except Err Val :=
  match asNum? a, asNum? b with
  | some x, some y => .ok (.vfloat (x / y))
  | _, _ => .error (.hostErr "TypeError: unsupported operand type(s) for /")

/-- Python `<` for the shapes the claims can reach: numbers and strings.
List-list lexicographic comparison exists in Python but is not modelled
(no claim uses `<` or `>` at all). -/
def pyLt (a b : Val) : Except Err Bool :=
  match asNum? a, asNum? b with
  | some x, some y => .ok (decide (x < y))
  | _, _ =>
    match a, b with
    | .vstr s, .vstr t => .ok (decide (s < t))
    | _, _ => .error (.hostErr "TypeError: comparison not supported (model covers numbers and strings)")

/-- Python iteration (`for x in xs`): lists yield elements, strings yield
one-character strings, dicts yield keys. -/
def pyIter : Val → Except Err (List Val)
  | .vlist xs => .ok xs
  | .vstr s => .ok (s.toList.map (fun c => .vstr (String.mk [c])))
  | .vdict kvs => .ok (kvs.map Prod.fst)
  | _ => .error (.hostErr "TypeError: object is not iterable")

/-- Python list indexing xs[i]: negative indices count from the end, out of
range raises IndexError. -/
def pyIndex (xs : List Val) (i : Int) : Except Err Val :=
  let j : Int := if i < 0 then i + xs.length else i
  if j < 0 then .error (.hostErr "IndexError: list index out of range")
  else
    match xs.get? j.toNat with
    | some v => .ok v
    | none => .error (.hostErr "IndexError: list index out of range")

/-- Clamp a slice bound the way CPython's PySlice_AdjustIndices does. -/
def sliceClamp (len : Int) (step : Int) (dflt : Int) (i? : Option Int) : Int :=
  match i? with
  | none => dflt
  | some i =>
    if i < 0 then
      max (i + len) (if step > 0 then 0 else -1)
    else
      min i (if step > 0 then len else len - 1)

/-- Python slice semantics xs[slice(start, stop, step)]. -/
def pySlice (xs : List Val) (start? stop? step? : Option Int) : Except Err (List Val) :=
  let len : Int := xs.length
  let step := step?.getD 1
  if step = 0 then .error (.hostErr "ValueError: slice step cannot be zero")
  else
    let start := sliceClamp len step (if step > 0 then 0 else len - 1) start?
    let stop := sliceClamp len step (if step > 0 then len else -1) stop?
    let count : Nat :=
      if step > 0 then
        (if start < stop then ((stop - start + step - 1) / step).toNat else 0)
      else
        (if stop < start then ((start - stop + (-step) - 1) / (-step)).toNat else 0)
    let idxs := (List.range count).map (fun k => start + step * (k : Int))
    let pick := fun (i : Int) =>
      match xs.get? i.toNat with
      | some v => some v
      | none => none
    .ok (idxs.filterMap pick)

/-- The slice argument values accepted from `fn_slice`: ints / bools as
indices, nil as an omitted bound. -/
def asSliceArg? : Val → Option (Option Int)
  | .vnil => some none
  | .vint n => some (some n)
  | .vbool b => some (some (if b then 1 else 0))
  | _ => none

/-- Python dict insert with == key semantics, used by map literals: an equal
key keeps its original position (and key object) and overwrites the value.
Fueled through pyEqB; `none` is the fuel artifact. -/
def dictSetAcc : Nat → List (Val × Val) → Val → Val → Option (List (Val × Val))
  | _, [], k, v => some [(k, v)]
  | fuel, (k2, v2) :: rest, k, v =>
    match pyEqB fuel k2 k with
    | none => none
    | some true => some ((k2, v) :: rest)
    | some false =>
      match dictSetAcc fuel rest k v with
      | none => none
      | some rest2 => some ((k2, v2) :: rest2)

/-- The `_builtins` dict (interpret.py 152 and the decorated fn_... below
it), in insertion order: the three constants first, then the builtin
functions in source order. -/
def builtinsScope : Scope :=
  [("true", .vbool true), ("false", .vbool false), ("nil", .vnil),
   ("defn", .builtin .defnB), ("fn", .builtin .fnB), ("partial", .builtin .partB),
   ("apply", .builtin .applyB), ("map", .builtin .mapB), ("filter", .builtin .filterB),
   ("reduce", .builtin .reduceB), ("let", .builtin .letB), ("if", .builtin .ifB),
   ("when", .builtin .whenB), ("case", .builtin .caseB), ("exit", .builtin .exitB),
   ("join", .builtin .joinB), ("not", .builtin .notB), ("+", .builtin .addB),
   ("-", .builtin .subB), ("*", .builtin .mulB), ("/", .builtin .divB),
   (">", .builtin .gtB), ("<", .builtin .ltB), ("=", .builtin .eqB),
   ("or", .builtin .orB), ("and", .builtin .andB), ("nth", .builtin .nthB),
   ("slice", .builtin .sliceB)]

/-- Is the value a Python function object?  Exactly the three function-valued
constructors pass the `type(fn).__name__ != 'function'` check in handle_call. -/
def isFunction : Val → Bool
  | .closure _ _ _ _ => true
  | .partialApp _ _ _ _ => true
  | .builtin _ => true
  | _ => false

/-- The parameter validation loop at fn_fn definition time (interpret.py
167-169): every parameter node must be an identifier. -/
def checkParams : List Node → Option Err
  | [] => none
  | p :: rest =>
    if p.tag = .identifier then checkParams rest
    else some (mkInterpErr ("Invalid function parameter " ++ payloadToMsg p.value) p)

/-- Name resolution (handle_identifier, interpret.py 101-111): walk the
scope chain outward; exhausting the chain raises an unresolved-name error.
Fueled: parent chains built by the evaluator are strictly decreasing heap
indices, so any fuel beyond the chain length gives the Python behaviour. -/
def idLookup : Nat → String → Node → Nat → Heap → Res Val
  | 0, _, _, _, _ => .error .fuelErr
  | fuel + 1, name, node, ctx, heap =>
    match heap.get? ctx with
    | none => .error (.hostErr "model: dangling frame reference")
    | some fr =>
      match scopeGet? fr.scope name with
      | some v => .ok (v, heap)
      | none =>
        match fr.parent with
        | none => .error (mkInterpErr ("Unable to resolve name " ++ name) node)
        | some p => idLookup fuel name node p heap

/-- The arity error raised by assert_arity (interpret.py 28-40). -/
def arityFail (node : Node) : Err :=
  mkInterpErr "Incorrect number of arguments passed" node

/-- Evaluating a node whose payload is read back directly as a value
(handlers for any / int / float / string return node['value'] verbatim;
after `wrap` the payload can be an arbitrary pre-computed value). -/
def payloadVal (p : Payload) (heap : Heap) : Res Val :=
  match p with
  | .pint n => .ok (.vint n, heap)
  | .pfloat q => .ok (.vfloat q, heap)
  | .pstr s => .ok (.vstr s, heap)
  | .pval v => .ok (v, heap)
  | .pnodes _ => .error (.hostErr "model: raw node list escaping as a value is not modelled")

mutual

/-- The dispatcher `evaluate(node, context)` (interpret.py 72-75) together
with the per-tag handlers (89-146).  Every recursive call of the group runs
at decremented fuel; the fuel is a depth bound, a model artifact. -/
def evaluate : Nat → Node → Nat → Heap → Res Val
  | 0, _, _, _ => .error .fuelErr
  | fuel + 1, node, ctx, heap =>
    match node with
    | .mk .call (.pnodes (nameNode :: argNodes)) _ =>
      -- handle_call (89-98): evaluate the callee, check it is a function,
      -- then pass the RAW argument nodes, the call node and the context.
      match evaluate fuel nameNode ctx heap with
      | .error e => .error e
      | .ok (fv, h1) =>
        if isFunction fv then applyF fuel fv argNodes node ctx h1
        else .error (mkInterpErr (payloadToMsg nameNode.value ++ " is not a function") node)
    | .mk .call (.pnodes []) _ =>
      -- Python: `name, *args = node['value']` on an empty list
      .error (.hostErr "ValueError: not enough values to unpack")
    | .mk .call _ _ => .error (.hostErr "model: call payload is not a node list")
    | .mk .identifier (.pstr name) _ => idLookup fuel name node ctx heap
    | .mk .identifier _ _ => .error (.hostErr "model: identifier payload is not a string")
    -- handle_any / handle_int / handle_float / handle_string (114-131) all
    -- return node['value'] verbatim, whatever it is: after a `wrap` the
    -- payload under these tags can be any pre-computed value.
    | .mk .any p _ => payloadVal p heap
    | .mk .int p _ => payloadVal p heap
    | .mk .float p _ => payloadVal p heap
    | .mk .string p _ => payloadVal p heap
    | .mk .vec (.pnodes ns) _ =>
      -- handle_vec (134-136)
      match evaluateAll fuel ns ctx heap with
      | .error e => .error e
      | .ok (vs, h) => .ok (.vlist vs, h)
    | .mk .vec _ _ => .error (.hostErr "model: vec payload is not a node list")
    | .mk .map (.pnodes ns) _ => dictLoop fuel ns ctx [] heap
    | .mk .map _ _ => .error (.hostErr "model: map payload is not a node list")
termination_by structural f _ _ _ => f

/-- evaluate_all (interpret.py 78-83): left-to-right, each node fully
evaluated (and its heap effects threaded) before the next. -/
def evaluateAll : Nat → List Node → Nat → Heap → Res (List Val)
  | 0, _, _, _ => .error .fuelErr
  | _ + 1, [], _, heap => .ok ([], heap)
  | fuel + 1, n :: ns, ctx, heap =>
    match evaluate fuel n ctx heap with
    | .error e => .error e
    | .ok (v, h1) =>
      match evaluateAll fuel ns ctx h1 with
      | .error e => .error e
      | .ok (vs, h2) => .ok (v :: vs, h2)
termination_by structural f _ _ _ => f

/-- Invoke a function value on raw argument nodes: `fn(args, node, context)`.
handle_call has already checked `isFunction`. -/
def applyF : Nat → Val → List Node → Node → Nat → Heap → Res Val
  | 0, _, _, _, _, _ => .error .fuelErr
  | fuel + 1, fv, args, node, ctx, heap =>
    match fv with
    | .closure params body defCtx defNode =>
      callClosure fuel params body defCtx defNode args ctx heap
    | .partialApp defNode fnExpr fixed defCtx =>
      -- fn_partial's inner f (194-195): build a call node of the captured fn
      -- expression, the fixed argument nodes and the new caller arguments,
      -- and evaluate it in the CAPTURED defining context.
      evaluate fuel (wrap defNode .call (.pnodes (fnExpr :: (fixed ++ args)))) defCtx heap
    | .builtin b => applyBuiltin fuel b args node ctx heap
    | _ => .error (.hostErr "model: applyF on a non-function value")
termination_by structural f _ _ _ _ _ => f

/-- The closure body `f(caller_args, caller_node, caller_context)` produced
by fn_fn (interpret.py 171-185). -/
def callClosure : Nat → List Node → Node → Nat → Node → List Node → Nat → Heap → Res Val
  | 0, _, _, _, _, _, _, _ => .error .fuelErr
  | fuel + 1, params, body, defCtx, defNode, callerArgs, callerCtx, heap =>
    match params with
    | [] =>
      -- With an empty parameter list the for-loop never runs and the
      -- subsequent `if len(params['value']) > i + 2` reads the unassigned
      -- loop variable `i`.
      .error (.hostErr "UnboundLocalError: local variable i referenced before assignment")
    | _ :: _ =>
      match bindLoop fuel params.length params 0 callerArgs callerCtx [] heap with
      | .error e => .error e
      | .ok ((scope, brk), h) =>
        -- After the loop, Python's `i` is the break index, or len-1 if the
        -- loop ran to completion.
        let iFinal := match brk with | some i => i | none => params.length - 1
        if params.length > iFinal + 2 then
          .error (mkInterpErr "Only one rest argument should be defined" defNode)
        else
          -- One fresh frame whose parent is the CAPTURED defining context.
          evaluate fuel body h.length (h ++ [⟨scope, some defCtx⟩])
termination_by structural f _ _ _ _ _ _ _ => f

/-- The parameter-binding for-loop inside fn_fn's f (173-180), walking the
remaining params in lockstep with the remaining caller argument nodes
(`remArgs = caller_args[i:]`).  Returns the built scope, the break index if
a rest marker was hit, and the threaded heap. -/
def bindLoop : Nat → Nat → List Node → Nat → List Node → Nat → Scope → Heap → Except Err ((Scope × Option Nat) × Heap)
  | 0, _, _, _, _, _, _, _ => .error .fuelErr
  | _ + 1, _, [], _, _, _, scope, heap => .ok ((scope, none), heap)
  | fuel + 1, total, p :: rest, i, remArgs, callerCtx, scope, heap =>
    match p.value with
    | .pstr s =>
      if s = "&" then
        -- rest marker: evaluate all remaining caller argument nodes in the
        -- caller's context, bind the sequence to the NEXT param's name
        -- (params['value'][i + 1]), and break.
        match evaluateAll fuel remArgs callerCtx heap with
        | .error e => .error e
        | .ok (vs, h) =>
          match rest with
          | [] => .error (.hostErr "IndexError: list index out of range")
          | keyNode :: _ =>
            match keyNode.value with
            | .pstr key => .ok ((scopeSet scope key (.vlist vs), some i), h)
            | _ => .error (.hostErr "model: non-string scope key")
      else
        -- plain formal: evaluate the matching caller argument node
        -- (caller_args[i]) in the caller's context.
        match remArgs with
        | [] => .error (.hostErr "IndexError: list index out of range")
        | a :: remArgs2 =>
          match evaluate fuel a callerCtx heap with
          | .error e => .error e
          | .ok (v, h) =>
            bindLoop fuel total rest (i + 1) remArgs2 callerCtx (scopeSet scope s v) h
    | _ => .error (.hostErr "model: non-string scope key")
termination_by structural f _ _ _ _ _ _ _ => f

/-- The key/value evaluation loop of handle_map (139-146): children
pairwise, later duplicate keys overwrite.  An odd child count evaluates the
last key and then fails indexing the missing value node. -/
def dictLoop : Nat → List Node → Nat → List (Val × Val) → Heap → Res Val
  | 0, _, _, _, _ => .error .fuelErr
  | _ + 1, [], _, acc, heap => .ok (.vdict acc, heap)
  | fuel + 1, [k], ctx, _, heap =>
    match evaluate fuel k ctx heap with
    | .error e => .error e
    | .ok _ => .error (.hostErr "IndexError: list index out of range")
  | fuel + 1, k :: v :: rest, ctx, acc, heap =>
    match evaluate fuel k ctx heap with
    | .error e => .error e
    | .ok (kv, h1) =>
      match evaluate fuel v ctx h1 with
      | .error e => .error e
      | .ok (vv, h2) =>
        match dictSetAcc fuel acc kv vv with
        | none => .error .fuelErr
        | some acc2 => dictLoop fuel rest ctx acc2 h2
termination_by structural f _ _ _ _ => f

/-- The per-element loop of fn_map (213-216). -/
def mapLoop : Nat → Node → Node → List Val → Nat → Heap → Res (List Val)
  | 0, _, _, _, _, _ => .error .fuelErr
  | _ + 1, _, _, [], _, heap => .ok ([], heap)
  | fuel + 1, f, node, x :: xs, ctx, heap =>
    match evaluate fuel (wrap node .call (.pnodes [f, wrap node .any (.pval x)])) ctx heap with
    | .error e => .error e
    | .ok (v, h1) =>
      match mapLoop fuel f node xs ctx h1 with
      | .error e => .error e
      | .ok (vs, h2) => .ok (v :: vs, h2)
termination_by structural f _ _ _ _ _ => f

/-- The per-element loop of fn_filter (224-227): keep the elements whose
call result is truthy. -/
def filterLoop : Nat → Node → Node → List Val → Nat → Heap → Res (List Val)
  | 0, _, _, _, _, _ => .error .fuelErr
  | _ + 1, _, _, [], _, heap => .ok ([], heap)
  | fuel + 1, f, node, x :: xs, ctx, heap =>
    match evaluate fuel (wrap node .call (.pnodes [f, wrap node .any (.pval x)])) ctx heap with
    | .error e => .error e
    | .ok (v, h1) =>
      match filterLoop fuel f node xs ctx h1 with
      | .error e => .error e
      | .ok (vs, h2) => .ok (if truthy v then x :: vs else vs, h2)
termination_by structural f _ _ _ _ _ => f

/-- The fold loop of fn_reduce (235-236): a left fold over the RAW child
nodes; each step calls fn-expr on the current element node and the
accumulator re-wrapped as a node carrying the INIT expression's tag. -/
def reduceLoop : Nat → Node → Tag → Node → List Node → Val → Nat → Heap → Res Val
  | 0, _, _, _, _, _, _, _ => .error .fuelErr
  | _ + 1, _, _, _, [], r, _, heap => .ok (r, heap)
  | fuel + 1, f, initTag, node, x :: xs, r, ctx, heap =>
    match evaluate fuel (wrap node .call (.pnodes [f, x, wrap node initTag (.pval r)])) ctx heap with
    | .error e => .error e
    | .ok (r2, h) => reduceLoop fuel f initTag node xs r2 ctx h
termination_by structural f _ _ _ _ _ _ _ => f

/-- The binding loop of fn_let (246-252): each value expression is evaluated
in the OUTER context; a non-string binding name would create a binding no
identifier can resolve (the value is still evaluated, the entry is dropped
by the string-keyed scope model). -/
def letLoop : Nat → List Node → Nat → Scope → Heap → Except Err (Scope × Heap)
  | 0, _, _, _, _ => .error .fuelErr
  | _ + 1, [], _, scope, heap => .ok (scope, heap)
  | _ + 1, [_], _, _, _ =>
    -- odd binding vector: pairs[i + 1] raises before anything of this pair
    -- is evaluated
    .error (.hostErr "IndexError: list index out of range")
  | fuel + 1, k :: v :: rest, ctx, scope, heap =>
    match evaluate fuel v ctx heap with
    | .error e => .error e
    | .ok (vv, h) =>
      match k.value with
      | .pstr key => letLoop fuel rest ctx (scopeSet scope key vv) h
      | _ => letLoop fuel rest ctx scope h
termination_by structural f _ _ _ _ => f

/-- The scan loop of fn_case (282-284): evaluate each key expression in
order; on the first key equal (Python ==) to the subject, evaluate and
return that pair's value expression. -/
def caseLoop : Nat → List Node → Val → Nat → Heap → Except Err (Option Val × Heap)
  | 0, _, _, _, _ => .error .fuelErr
  | _ + 1, [], _, _, heap => .ok (none, heap)
  | _ + 1, [_], _, _, _ =>
    -- unreachable from fn_case (the pair list is even after the default is
    -- split off); kept total with the IndexError Python would raise
    .error (.hostErr "IndexError: list index out of range")
  | fuel + 1, k :: v :: rest, subject, ctx, heap =>
    match evaluate fuel k ctx heap with
    | .error e => .error e
    | .ok (kv, h) =>
      match pyEqB fuel kv subject with
      | none => .error .fuelErr
      | some true =>
        match evaluate fuel v ctx h with
        | .error e => .error e
        | .ok (vv, h2) => .ok (some vv, h2)
      | some false => caseLoop fuel rest subject ctx h
termination_by structural f _ _ _ _ => f

/-- The multiply fold of fn_multiply (331): functools.reduce interleaves the
evaluation of each argument node with the multiplication. -/
def mulLoop : Nat → List Node → Val → Nat → Heap → Res Val
  | 0, _, _, _, _ => .error .fuelErr
  | _ + 1, [], r, _, heap => .ok (r, heap)
  | fuel + 1, x :: xs, r, ctx, heap =>
    match evaluate fuel x ctx heap with
    | .error e => .error e
    | .ok (v, h) =>
      match pyMul r v with
      | .error e => .error e
      | .ok r2 => mulLoop fuel xs r2 ctx h
termination_by structural f _ _ _ _ => f

/-- Dispatch on the builtin functions (interpret.py 152-392).  `args` are
the RAW argument nodes of the call, `node` the call node, `ctx` the calling
context — exactly the `(args, node, context)` each fn_... receives. -/
def applyBuiltin : Nat → Builtin → List Node → Node → Nat → Heap → Res Val
  | 0, _, _, _, _, _ => .error .fuelErr
  | fuel + 1, b, args, node, ctx, heap =>
    match b with
    | .defnB =>
      -- fn_defn (155-160): min 3 args; evaluate an `fn` call built from the
      -- remaining arguments, then assign it into the CURRENT frame's scope.
      if args.length < 3 then .error (arityFail node)
      else
        match args with
        | name :: rest =>
          match evaluate fuel (wrap node .call (.pnodes (wrap node .identifier (.pstr "fn") :: rest))) ctx heap with
          | .error e => .error e
          | .ok (v, h) =>
            match name.value with
            | .pstr key => .ok (.vnil, heapModifyScope h ctx (fun s => scopeSet s key v))
            | _ =>
              -- Python would store the value under a non-string key, a
              -- binding unobservable through identifier lookup; the
              -- string-keyed model drops it.
              .ok (.vnil, h)
        | [] => .error (.hostErr "model: unreachable, arity checked")
    | .fnB =>
      -- fn_fn (163-187): min 2 args, then `params, body = args` (a third
      -- argument makes the unpacking itself fail); all params must be
      -- identifier nodes; the result closes over the defining context.
      if args.length < 2 then .error (arityFail node)
      else
        match args with
        | [params, body] =>
          match params.value with
          | .pnodes ps =>
            match checkParams ps with
            | some e => .error e
            | none => .ok (.closure ps body ctx node, heap)
          | _ => .error (.hostErr "TypeError: parameter list is not a vector node")
        | _ => .error (.hostErr "ValueError: too many values to unpack")
    | .partB =>
      -- fn_partial (190-197): min 2; capture the fn expression node, the
      -- fixed argument nodes and the defining context.
      if args.length < 2 then .error (arityFail node)
      else
        match args with
        | name :: fixed => .ok (.partialApp node name fixed ctx, heap)
        | [] => .error (.hostErr "model: unreachable, arity checked")
    | .applyB =>
      -- fn_apply (200-205): exactly 2; evaluate the sequence expression,
      -- wrap each element value as an `any` node, and evaluate a call of
      -- the fn expression against them.
      if args.length ≠ 2 then .error (arityFail node)
      else
        match args with
        | [f, seqNode] =>
          match evaluate fuel seqNode ctx heap with
          | .error e => .error e
          | .ok (sv, h) =>
            match pyIter sv with
            | .error e => .error e
            | .ok xs =>
              evaluate fuel (wrap node .call (.pnodes (f :: xs.map (fun x => wrap node .any (.pval x))))) ctx h
        | _ => .error (.hostErr "model: unreachable, arity checked")
    | .mapB =>
      -- fn_map (208-216): exactly 2; evaluate the sequence, then call the
      -- fn expression on each element wrapped as `any`.
      if args.length ≠ 2 then .error (arityFail node)
      else
        match args with
        | [f, xsN] =>
          match evaluate fuel xsN ctx heap with
          | .error e => .error e
          | .ok (sv, h) =>
            match pyIter sv with
            | .error e => .error e
            | .ok xs =>
              match mapLoop fuel f node xs ctx h with
              | .error e => .error e
              | .ok (vs, h2) => .ok (.vlist vs, h2)
        | _ => .error (.hostErr "model: unreachable, arity checked")
    | .filterB =>
      -- fn_filter (219-227)
      if args.length ≠ 2 then .error (arityFail node)
      else
        match args with
        | [f, xsN] =>
          match evaluate fuel xsN ctx heap with
          | .error e => .error e
          | .ok (sv, h) =>
            match pyIter sv with
            | .error e => .error e
            | .ok xs =>
              match filterLoop fuel f node xs ctx h with
              | .error e => .error e
              | .ok (vs, h2) => .ok (.vlist vs, h2)
        | _ => .error (.hostErr "model: unreachable, arity checked")
    | .reduceB =>
      -- fn_reduce (230-238): exactly 3; the accumulator starts at the
      -- evaluated init and folds over the RAW child nodes of the third
      -- argument.  A non-node-list payload fails when iteration starts,
      -- after init has been evaluated.
      if args.length ≠ 3 then .error (arityFail node)
      else
        match args with
        | [f, init, xsN] =>
          match evaluate fuel init ctx heap with
          | .error e => .error e
          | .ok (r0, h) =>
            match xsN.value with
            | .pnodes elems => reduceLoop fuel f init.tag node elems r0 ctx h
            | _ => .error (.hostErr "TypeError: reduce source payload is not a node list")
        | _ => .error (.hostErr "model: unreachable, arity checked")
    | .letB =>
      -- fn_let (241-252): min 2 then `params, body = args`; bindings are
      -- evaluated in the outer context and the body in one fresh child
      -- frame of the current context.
      if args.length < 2 then .error (arityFail node)
      else
        match args with
        | [params, body] =>
          match params.value with
          | .pnodes pairs =>
            match letLoop fuel pairs ctx [] heap with
            | .error e => .error e
            | .ok (scope, h) => evaluate fuel body h.length (h ++ [⟨scope, some ctx⟩])
          | _ => .error (.hostErr "TypeError: let bindings are not a vector node")
        | _ => .error (.hostErr "ValueError: too many values to unpack")
    | .ifB =>
      -- fn_if (255-262): exactly 3; evaluate the condition, then exactly
      -- one branch.
      if args.length ≠ 3 then .error (arityFail node)
      else
        match args with
        | [c, y, n] =>
          match evaluate fuel c ctx heap with
          | .error e => .error e
          | .ok (cv, h) =>
            if truthy cv then evaluate fuel y ctx h else evaluate fuel n ctx h
        | _ => .error (.hostErr "model: unreachable, arity checked")
    | .whenB =>
      -- fn_when (265-270): exactly 2; an untaken branch leaves the Python
      -- function returning None.
      if args.length ≠ 2 then .error (arityFail node)
      else
        match args with
        | [c, y] =>
          match evaluate fuel c ctx heap with
          | .error e => .error e
          | .ok (cv, h) =>
            if truthy cv then evaluate fuel y ctx h else .ok (.vnil, h)
        | _ => .error (.hostErr "model: unreachable, arity checked")
    | .caseB =>
      -- fn_case (273-289): min 2; evaluate the subject once; an odd pair
      -- list donates its last element as the default.  The local `default`
      -- is assigned ONLY in the odd case: with an even pair list and no
      -- match, `if default:` reads an unbound local.  When it is assigned
      -- it is a node dict, which is always truthy, so the final
      -- `raise InterpeterError("Case failed to match", node)` is dead code.
      if args.length < 2 then .error (arityFail node)
      else
        match args with
        | valueNode :: pairsAll =>
          match evaluate fuel valueNode ctx heap with
          | .error e => .error e
          | .ok (v, h) =>
            let dflt := if pairsAll.length % 2 = 1 then pairsAll.getLast? else none
            let pairs := if pairsAll.length % 2 = 1 then pairsAll.dropLast else pairsAll
            match caseLoop fuel pairs v ctx h with
            | .error e => .error e
            | .ok (some r, h2) => .ok (r, h2)
            | .ok (none, h2) =>
              match dflt with
              | some d => evaluate fuel d ctx h2
              | none => .error (.hostErr "UnboundLocalError: local variable default referenced before assignment")
        | [] => .error (.hostErr "model: unreachable, arity checked")
    | .exitB =>
      -- fn_exit (292-296): exactly 1; raise InterpreterReturn carrying the
      -- evaluated value.
      if args.length ≠ 1 then .error (arityFail node)
      else
        match args with
        | [x] =>
          match evaluate fuel x ctx heap with
          | .error e => .error e
          | .ok (v, _) => .error (.ret v)
        | _ => .error (.hostErr "model: unreachable, arity checked")
    | .joinB =>
      -- fn_join (299-305): min 1; the separator must evaluate to a string
      -- (the .join attribute lookup happens before the remaining arguments
      -- are evaluated).
      if args.length < 1 then .error (arityFail node)
      else
        match args with
        | sep :: rest =>
          match evaluate fuel sep ctx heap with
          | .error e => .error e
          | .ok (sv, h) =>
            match sv with
            | .vstr s =>
              match evaluateAll fuel rest ctx h with
              | .error e => .error e
              | .ok (vs, h2) => .ok (.vstr (String.intercalate s (vs.map pyStr)), h2)
            | _ => .error (.hostErr "AttributeError: object has no attribute join")
        | [] => .error (.hostErr "model: unreachable, arity checked")
    | .notB =>
      -- fn_not (308-312)
      if args.length ≠ 1 then .error (arityFail node)
      else
        match args with
        | [x] =>
          match evaluate fuel x ctx heap with
          | .error e => .error e
          | .ok (v, h) => .ok (.vbool (!truthy v), h)
        | _ => .error (.hostErr "model: unreachable, arity checked")
    | .addB =>
      -- fn_plus (315-317): NO arity check; sum of all evaluated arguments,
      -- 0 for none.
      match evaluateAll fuel args ctx heap with
      | .error e => .error e
      | .ok (vs, h) =>
        match pySum vs with
        | .error e => .error e
        | .ok v => .ok (v, h)
    | .subB =>
      -- fn_minus (320-324): exactly 2
      if args.length ≠ 2 then .error (arityFail node)
      else
        match evaluateAll fuel args ctx heap with
        | .error e => .error e
        | .ok ([a, bb], h) =>
          match pySub a bb with
          | .error e => .error e
          | .ok v => .ok (v, h)
        | .ok _ => .error (.hostErr "model: unreachable, arity checked")
    | .mulB =>
      -- fn_multiply (327-331): min 1 (so zero arguments is an arity error,
      -- despite the fold starting from 1); product via functools.reduce.
      if args.length < 1 then .error (arityFail node)
      else mulLoop fuel args (.vint 1) ctx heap
    | .divB =>
      -- fn_divide (334-341): exactly 2; a divisor Python-equal to 0 raises
      -- DivisionByZero; otherwise true division.
      if args.length ≠ 2 then .error (arityFail node)
      else
        match evaluateAll fuel args ctx heap with
        | .error e => .error e
        | .ok ([a, bb], h) =>
          match pyEqB fuel bb (.vint 0) with
          | none => .error .fuelErr
          | some true => .error (mkInterpErr "Division by zero" node)
          | some false =>
            match pyDiv a bb with
            | .error e => .error e
            | .ok v => .ok (v, h)
        | .ok _ => .error (.hostErr "model: unreachable, arity checked")
    | .gtB =>
      -- fn_gt for '>' (344-348)
      if args.length ≠ 2 then .error (arityFail node)
      else
        match evaluateAll fuel args ctx heap with
        | .error e => .error e
        | .ok ([a, bb], h) =>
          match pyLt bb a with
          | .error e => .error e
          | .ok r => .ok (.vbool r, h)
        | .ok _ => .error (.hostErr "model: unreachable, arity checked")
    | .ltB =>
      -- fn_gt for '<' (351-355)
      if args.length ≠ 2 then .error (arityFail node)
      else
        match evaluateAll fuel args ctx heap with
        | .error e => .error e
        | .ok ([a, bb], h) =>
          match pyLt a bb with
          | .error e => .error e
          | .ok r => .ok (.vbool r, h)
        | .ok _ => .error (.hostErr "model: unreachable, arity checked")
    | .eqB =>
      -- fn_gt for '=' (358-362)
      if args.length ≠ 2 then .error (arityFail node)
      else
        match evaluateAll fuel args ctx heap with
        | .error e => .error e
        | .ok ([a, bb], h) =>
          match pyEqB fuel a bb with
          | none => .error .fuelErr
          | some r => .ok (.vbool r, h)
        | .ok _ => .error (.hostErr "model: unreachable, arity checked")
    | .orB =>
      -- fn_gt for 'or' (365-367): any() AFTER evaluate_all — every argument
      -- is evaluated before the truthiness combination; no short-circuit.
      match evaluateAll fuel args ctx heap with
      | .error e => .error e
      | .ok (vs, h) => .ok (.vbool (vs.any truthy), h)
    | .andB =>
      -- fn_gt for 'and' (370-372): all() after evaluate_all; no
      -- short-circuit.
      match evaluateAll fuel args ctx heap with
      | .error e => .error e
      | .ok (vs, h) => .ok (.vbool (vs.all truthy), h)
    | .nthB =>
      -- fn_nth (375-382): exactly 2; the subject must be a list, the index
      -- follows Python index semantics.
      if args.length ≠ 2 then .error (arityFail node)
      else
        match evaluateAll fuel args ctx heap with
        | .error e => .error e
        | .ok ([xsv, iv], h) =>
          match xsv with
          | .vlist xs =>
            match asIntLike? iv with
            | some i =>
              match pyIndex xs i with
              | .error e => .error e
              | .ok v => .ok (v, h)
            | none => .error (.hostErr "TypeError: list indices must be integers")
          | _ => .error (mkInterpErr "Can't get index of non-vector" node)
        | .ok _ => .error (.hostErr "model: unreachable, arity checked")
    | .sliceB =>
      -- fn_slice (385-392): 2 to 4 arguments; slice(*args) takes the single
      -- extra argument as the STOP bound, two as start/stop, three as
      -- start/stop/step.
      if args.length < 2 ∨ args.length > 4 then .error (arityFail node)
      else
        match evaluateAll fuel args ctx heap with
        | .error e => .error e
        | .ok (xsv :: rest, h) =>
          match xsv with
          | .vlist xs =>
            match rest.mapM asSliceArg? with
            | none => .error (.hostErr "TypeError: slice indices must be integers or None")
            | some bounds =>
              let spec : Option Int × Option Int × Option Int :=
                match bounds with
                | [b1] => (none, b1, none)
                | [b1, b2] => (b1, b2, none)
                | [b1, b2, b3] => (b1, b2, b3)
                | _ => (none, none, none)
              match pySlice xs spec.1 spec.2.1 spec.2.2 with
              | .error e => .error e
              | .ok vs => .ok (.vlist vs, h)
          | _ => .error (mkInterpErr "Can't get slice of non-vector" node)
        | .ok _ => .error (.hostErr "model: unreachable, arity checked")
termination_by structural f _ _ _ _ _ => f

end


/-- The top scope built by `interpret` (interpret.py 5-8): the caller's
mapping, mutated in place by scope.update(_builtins) and then
scope.update(_library).  The prelude `_library` dict is a parameter: its
contents come from library.bedlam, a resource outside src/ (see §4.5 of the
spec); every theorem about it quantifies over an arbitrary library mapping. -/
def initialScope (scope lib : Scope) : Scope :=
  scopeUpdate (scopeUpdate scope builtinsScope) lib

/-- The driver `interpret(ast, scope)` (interpret.py 5-15): evaluate every
top-level node against one root frame holding the merged scope; an
InterpreterReturn raised by `exit` yields its carried value; otherwise the
driver indexes `result[-1]`, which on an empty AST raises IndexError. -/
def interpret (lib : Scope) (ast : List Node) (scope : Scope) (fuel : Nat) : Except Err Val :=
  match evaluateAll fuel ast 0 [⟨initialScope scope lib, none⟩] with
  | .error (.ret v) => .ok v
  | .error e => .error e
  | .ok (results, _) =>
    match results.getLast? with
    | some v => .ok v
    | none => .error (.hostErr "IndexError: list index out of range")

/-- Run a program with no caller scope and no prelude library, at a fuel
ample for every concrete program in this development. -/
def runProgram (ast : List Node) : Except Err Val :=
  interpret [] ast [] 64

/-- A fixed location for the nodes of concrete test programs. -/
def L0 : Loc := ⟨1, 0⟩

def nID (s : String) : Node := .mk .identifier (.pstr s) L0

def nInt (n : Int) : Node := .mk .int (.pint n) L0

def nStr (s : String) : Node := .mk .string (.pstr s) L0

def nCall (ns : List Node) : Node := .mk .call (.pnodes ns) L0

def nVec (ns : List Node) : Node := .mk .vec (.pnodes ns) L0

def nAny (v : Val) : Node := .mk .any (.pval v) L0


/-! ### Concrete test programs -/

/-- The program `(if true 1 (/ 1 0))`. -/
def progIfTrueDiv : Node :=
  nCall [nID "if", nID "true", nInt 1, nCall [nID "/", nInt 1, nInt 0]]

/-- The program `(when false (/ 1 0))`. -/
def progWhenFalseDiv : Node :=
  nCall [nID "when", nID "false", nCall [nID "/", nInt 1, nInt 0]]

/-- The program `(/ 1 0)`. -/
def progDivZero : Node := nCall [nID "/", nInt 1, nInt 0]

/-- The program `(case 1 2 3)`: a subject plus one key/value pair, no
default, and no key equal to the subject. -/
def progCaseNoMatch : Node := nCall [nID "case", nInt 1, nInt 2, nInt 3]

/-- The form `(fn [& a & b] 1)`: a parameter list with two rest formals. -/
def progFnDoubleRest : Node :=
  nCall [nID "fn", nVec [nID "&", nID "a", nID "&", nID "b"], nInt 1]

/-- The two-statement program
`(defn make [x] (fn [z] x))` followed by `(let [x 99] ((make 1) 5))`:
the closure returned by `make` must read the `x` bound at its definition
(1), not the caller-scope `x` (99). -/
def progClosureDemo : List Node :=
  [nCall [nID "defn", nID "make", nVec [nID "x"], nCall [nID "fn", nVec [nID "z"], nID "x"]],
   nCall [nID "let", nVec [nID "x", nInt 99], nCall [nCall [nID "make", nInt 1], nInt 5]]]

/-- The program `(reduce + 0 [1 2 3])`. -/
def progReduceSum : Node :=
  nCall [nID "reduce", nID "+", nInt 0, nVec [nInt 1, nInt 2, nInt 3]]

/-- The program `(reduce + 0 [(+ 1 1) 2])`: the elements of the sequence
literal are raw nodes, evaluated only as the fold reaches them. -/
def progReduceRaw : Node :=
  nCall [nID "reduce", nID "+", nInt 0, nVec [nCall [nID "+", nInt 1, nInt 1], nInt 2]]

/-- The program `(apply if [true 1 (/ 1 0)])`. -/
def progApplyIf : Node :=
  nCall [nID "apply", nID "if", nVec [nID "true", nInt 1, nCall [nID "/", nInt 1, nInt 0]]]

/-- The program `(or true (/ 1 0))`. -/
def progOrTrueDiv : Node := nCall [nID "or", nID "true", nCall [nID "/", nInt 1, nInt 0]]

/-- The program `(and false (/ 1 0))`. -/
def progAndFalseDiv : Node := nCall [nID "and", nID "false", nCall [nID "/", nInt 1, nInt 0]]

/-! ### Claim theorems: concrete-only claims -/

/-- Claim C3 (code bug): for a `case` call whose subject plus an even number
of pair elements matches no key, fn_case never assigned its local `default`,
so `if default:` raises a host-level UnboundLocalError — evaluation does NOT
fail with the interpreter's CaseFailed error (that raise is dead code). -/
theorem claim_C3_case_unbound_default :
    runProgram [progCaseNoMatch]
      = .error (.hostErr "UnboundLocalError: local variable default referenced before assignment") :=
  rfl

/-- Claim C4, counterexample: evaluating the `fn` form `(fn [& a & b] 1)`
with two rest formals does NOT raise at definition time — it succeeds and
returns a closure (the definition-time loop only checks that every
parameter is an identifier). -/
theorem claim_C4_counterexample :
    runProgram [progFnDoubleRest]
      = .ok (.closure [nID "&", nID "a", nID "&", nID "b"] (nInt 1) 0 progFnDoubleRest) :=
  rfl

/-- Claim C4, amended: the more-than-one-rest-formal check lives inside the
closure fn_fn returns, so it fires when the function is INVOKED, not when
the `fn` form is evaluated: calling `((fn [& a & b] 1))` raises the
"Only one rest argument should be defined" error at the defining node's
location. -/
theorem claim_C4_rest_error_at_call_time :
    runProgram [nCall [progFnDoubleRest]]
      = .error (.interpErr "Only one rest argument should be defined" 1 0) :=
  rfl

/-- Claim C5, counterexample: `(*)` with zero argument nodes does not
evaluate to 1 — fn_multiply asserts a minimum arity of 1, so it raises the
arity error. -/
theorem claim_C5_counterexample :
    runProgram [nCall [nID "*"]] = .error (.interpErr "Incorrect number of arguments passed" 1 0)
      ∧ runProgram [nCall [nID "*"]] ≠ .ok (.vint 1) := by
  refine ⟨rfl, ?_⟩
  intro h
  rw [show runProgram [nCall [nID "*"]]
        = .error (.interpErr "Incorrect number of arguments passed" 1 0) from rfl] at h
  exact Except.noConfusion h

/-- Claim C5, amended: `(+)` with zero argument nodes evaluates to 0 (sum
of the empty list), but `(*)` with zero argument nodes raises an arity
error; with at least one argument `*` is the product (fold from 1). -/
theorem claim_C5_plus_zero_mul_arity :
    runProgram [nCall [nID "+"]] = .ok (.vint 0)
      ∧ runProgram [nCall [nID "*"]] = .error (.interpErr "Incorrect number of arguments passed" 1 0)
      ∧ runProgram [nCall [nID "*", nInt 2, nInt 3]] = .ok (.vint 6) :=
  ⟨rfl, rfl, rfl⟩

/-! ### Scope-lookup lemmas -/

/-- Looking a key up after a dict assignment. -/
theorem scopeGet?_scopeSet (s : Scope) (k : String) (v : Val) (q : String) :
    scopeGet? (scopeSet s k v) q = if k = q then some v else scopeGet? s q := by
  induction s with
  | nil =>
    by_cases h : k = q
    · simp [scopeSet, scopeGet?, h]
    · simp [scopeSet, scopeGet?, h]
  | cons kv rest ih =>
    obtain ⟨a, b⟩ := kv
    by_cases hak : a = k
    · subst hak
      by_cases haq : a = q
      · subst haq
        simp [scopeSet, scopeGet?]
      · simp [scopeSet, scopeGet?, haq]
    · by_cases haq : a = q
      · subst haq
        have hka : ¬k = a := fun h => hak h.symm
        simp [scopeSet, scopeGet?, hak, hka]
      · have hstep : scopeSet ((a, b) :: rest) k v = (a, b) :: scopeSet rest k v := by
          simp [scopeSet, hak]
        rw [hstep]
        simp [scopeGet?, haq, ih]

/-- The binding a Python dict.update sequence leaves for a key: the LAST
entry of `t` with that key wins. -/
def updLookup : Scope → String → Option Val
  | [], _ => none
  | (k2, v) :: rest, k =>
    match updLookup rest k with
    | some w => some w
    | none => if k2 = k then some v else none

/-- Lookup after dict.update: an entry of `t` shadows whatever `s` held. -/
theorem scopeGet?_scopeUpdate (s t : Scope) (k : String) :
    scopeGet? (scopeUpdate s t) k =
      match updLookup t k with
      | some w => some w
      | none => scopeGet? s k := by
  induction t generalizing s with
  | nil => simp [scopeUpdate, updLookup]
  | cons kv rest ih =>
    obtain ⟨a, b⟩ := kv
    have hstep : scopeUpdate s ((a, b) :: rest) = scopeUpdate (scopeSet s a b) rest := by
      simp [scopeUpdate]
    rw [hstep, ih]
    cases hrest : updLookup rest k with
    | some w => simp [updLookup, hrest]
    | none =>
      simp only [updLookup, hrest, scopeGet?_scopeSet]
      by_cases hak : a = k
      · simp [hak]
      · simp [hak]

/-- Claim C9: interpret merges the builtin bindings and then the
prelude-library bindings into the caller-supplied mapping (the same dict
object, via scope.update), so for every name bound by the builtins or the
library the caller's initial entry is never visible: the root-frame lookup
is independent of the caller mapping.  Concretely, a caller binding of
`map` is shadowed by the builtin, and a whole-program lookup of `map`
returns the builtin whatever the initial scope was.  The library mapping is
quantified (its contents live in library.bedlam, outside src/). -/
theorem claim_C9_initial_scope_overrides :
    (∀ (s s' lib : Scope) (k : String),
        (updLookup builtinsScope k).isSome ∨ (updLookup lib k).isSome →
        scopeGet? (initialScope s lib) k = scopeGet? (initialScope s' lib) k)
    ∧ scopeGet? (initialScope [("map", .vint 0)] []) "map" = some (.builtin .mapB)
    ∧ (∀ (s : Scope) (c : Nat), interpret [] [nID "map"] s (c + 3) = .ok (.builtin .mapB)) := by
  refine ⟨?_, rfl, ?_⟩
  · intro s s' lib k hk
    cases hlib : updLookup lib k with
    | some w => simp [initialScope, scopeGet?_scopeUpdate, hlib]
    | none =>
      cases hb : updLookup builtinsScope k with
      | some w => simp [initialScope, scopeGet?_scopeUpdate, hlib, hb]
      | none => rcases hk with h | h <;> simp [hb, hlib] at h
  · intro s c
    have hmap : scopeGet? (initialScope s []) "map" = some (.builtin .mapB) := by
      show scopeGet? (scopeUpdate (scopeUpdate s builtinsScope) []) "map" = _
      rw [scopeGet?_scopeUpdate, scopeGet?_scopeUpdate]
      rfl
    have hid : idLookup (c + 1) "map" (nID "map") 0 [⟨initialScope s [], none⟩]
        = .ok (.builtin .mapB, [⟨initialScope s [], none⟩]) := by
      simp only [idLookup, List.get?, hmap]
    have hev : evaluate (c + 1 + 1) (nID "map") 0 [⟨initialScope s [], none⟩]
        = .ok (.builtin .mapB, [⟨initialScope s [], none⟩]) := by
      simp only [nID, evaluate]
      exact hid
    show interpret [] [nID "map"] s (c + 1 + 1 + 1) = .ok (.builtin .mapB)
    simp only [interpret, evaluateAll]
    rw [hev]
    rfl

/-- evaluate_all returns one value per input node. -/
theorem evaluateAll_ok_length {ns : List Node} :
    ∀ {fuel ctx : Nat} {heap : Heap} {vs : List Val} {h2 : Heap},
      evaluateAll fuel ns ctx heap = .ok (vs, h2) → vs.length = ns.length := by
  induction ns with
  | nil =>
    intro fuel ctx heap vs h2 hyp
    cases fuel with
    | zero => simp [evaluateAll] at hyp
    | succ f =>
      simp only [evaluateAll] at hyp
      obtain ⟨rfl, rfl⟩ := Prod.mk.injEq .. ▸ Except.ok.inj hyp
      rfl
  | cons n ns ih =>
    intro fuel ctx heap vs h2 hyp
    cases fuel with
    | zero => simp [evaluateAll] at hyp
    | succ f =>
      simp only [evaluateAll] at hyp
      cases hev : evaluate f n ctx heap with
      | error e =>
        simp only [hev] at hyp
        exact Except.noConfusion hyp
      | ok p =>
        obtain ⟨v, h1⟩ := p
        simp only [hev] at hyp
        cases hall : evaluateAll f ns ctx h1 with
        | error e =>
          simp only [hall] at hyp
          exact Except.noConfusion hyp
        | ok q =>
          obtain ⟨vs', h3⟩ := q
          simp only [hall, Except.ok.injEq, Prod.mk.injEq] at hyp
          obtain ⟨h4, -⟩ := hyp
          subst h4
          simp [ih hall]

/-- Claim C10: `interpret` on an empty top-level sequence raises a
host-level IndexError (indexing result[-1] of an empty list), never a
Value; on a non-empty sequence whose evaluation finishes without an exit it
returns the value of the last node. -/
theorem claim_C10_interpret_needs_nonempty :
    (∀ (lib s : Scope) (fuel : Nat),
        interpret lib [] s (fuel + 1) = .error (.hostErr "IndexError: list index out of range"))
    ∧ (∀ (lib s : Scope) (ast : List Node) (fuel : Nat) (vs : List Val) (h : Heap),
        ast ≠ [] →
        evaluateAll fuel ast 0 [⟨initialScope s lib, none⟩] = .ok (vs, h) →
        ∃ v, vs.getLast? = some v ∧ interpret lib ast s fuel = .ok v) := by
  constructor
  · intro lib s fuel
    rfl
  · intro lib s ast fuel vs h hne hall
    have hlen : vs.length = ast.length := evaluateAll_ok_length hall
    have hvs : vs ≠ [] := by
      intro h0
      subst h0
      exact hne (List.eq_nil_of_length_eq_zero hlen.symm)
    obtain ⟨v, hv⟩ := Option.isSome_iff_exists.mp (List.getLast?_isSome.mpr hvs)
    refine ⟨v, hv, ?_⟩
    simp only [interpret, hall, hv]

/-- Claim C2: for an `if` call with three argument nodes (resp. `when` with
two), fn_if / fn_when evaluate the condition and then exactly one branch —
the result is the selected branch's evaluation, so the untaken branch node
never contributes (in particular the if-result is unchanged when the
untaken branch is swapped for anything else).  Concretely,
`(if true 1 (/ 1 0))` is 1 with no error although `(/ 1 0)` alone raises
DivisionByZero, and `(when false (/ 1 0))` is nil. -/
theorem claim_C2_if_when_short_circuit :
    (∀ (fuel : Nat) (c y n node : Node) (ctx : Nat) (heap : Heap) (cv : Val) (h : Heap),
        evaluate fuel c ctx heap = .ok (cv, h) →
        applyBuiltin (fuel + 1) .ifB [c, y, n] node ctx heap
            = (if truthy cv then evaluate fuel y ctx h else evaluate fuel n ctx h)
          ∧ applyBuiltin (fuel + 1) .whenB [c, y] node ctx heap
            = (if truthy cv then evaluate fuel y ctx h else .ok (.vnil, h))
          ∧ (∀ n2 : Node, truthy cv = true →
              applyBuiltin (fuel + 1) .ifB [c, y, n] node ctx heap
                = applyBuiltin (fuel + 1) .ifB [c, y, n2] node ctx heap))
    ∧ runProgram [progIfTrueDiv] = .ok (.vint 1)
    ∧ runProgram [progWhenFalseDiv] = .ok .vnil
    ∧ runProgram [progDivZero] = .error (.interpErr "Division by zero" 1 0) := by
  refine ⟨?_, rfl, rfl, rfl⟩
  intro fuel c y n node ctx heap cv h hc
  have hif : ∀ m : Node, applyBuiltin (fuel + 1) .ifB [c, y, m] node ctx heap
      = (if truthy cv then evaluate fuel y ctx h else evaluate fuel m ctx h) := by
    intro m
    simp [applyBuiltin, hc]
  have hwhen : applyBuiltin (fuel + 1) .whenB [c, y] node ctx heap
      = (if truthy cv then evaluate fuel y ctx h else .ok (.vnil, h)) := by
    simp [applyBuiltin, hc]
  refine ⟨hif n, hwhen, ?_⟩
  intro n2 ht
  rw [hif n, hif n2, ht]
  simp

/-- Witness for claim C2 at concrete input: condition `1` is truthy, so the
if-call is the evaluation of the second argument. -/
theorem claim_C2_witness :
    applyBuiltin 2 .ifB [nInt 1, nInt 2, nInt 3] (nID "w") 0 []
      = (if truthy (.vint 1) then evaluate 1 (nInt 2) 0 [] else evaluate 1 (nInt 3) 0 []) :=
  (claim_C2_if_when_short_circuit.1 1 (nInt 1) (nInt 2) (nInt 3) (nID "w") 0 [] (.vint 1) [] rfl).1

/-- Claim C6: the `or` / `and` builtins run evaluate_all over every
argument node before combining by truthiness — they never short-circuit, so
any error raised while evaluating the full argument list is the call's
result even when an earlier operand already decided the truth value, and on
success the result is the any/all of the evaluated values.  Concretely
`(or true (/ 1 0))` and `(and false (/ 1 0))` raise DivisionByZero (whereas
C2 shows `if`/`when` would not evaluate such an operand). -/
theorem claim_C6_and_or_eager :
    (∀ (fuel : Nat) (args : List Node) (node : Node) (ctx : Nat) (heap : Heap) (e : Err),
        evaluateAll fuel args ctx heap = .error e →
        applyBuiltin (fuel + 1) .orB args node ctx heap = .error e
          ∧ applyBuiltin (fuel + 1) .andB args node ctx heap = .error e)
    ∧ (∀ (fuel : Nat) (args : List Node) (node : Node) (ctx : Nat) (heap : Heap)
          (vs : List Val) (h : Heap),
        evaluateAll fuel args ctx heap = .ok (vs, h) →
        applyBuiltin (fuel + 1) .orB args node ctx heap = .ok (.vbool (vs.any truthy), h)
          ∧ applyBuiltin (fuel + 1) .andB args node ctx heap = .ok (.vbool (vs.all truthy), h))
    ∧ runProgram [progOrTrueDiv] = .error (.interpErr "Division by zero" 1 0)
    ∧ runProgram [progAndFalseDiv] = .error (.interpErr "Division by zero" 1 0) := by
  refine ⟨?_, ?_, rfl, rfl⟩
  · intro fuel args node ctx heap e he
    constructor <;> simp [applyBuiltin, he]
  · intro fuel args node ctx heap vs h hok
    constructor <;> simp [applyBuiltin, hok]

/-- Witness for claim C6 at concrete input: with the builtins in scope,
evaluating the single argument `(/ 1 0)` errors, and the whole `or` call
returns that error although no operand was needed for the truth value. -/
theorem claim_C6_witness :
    applyBuiltin 11 .orB [progDivZero] (nID "w") 0 [⟨builtinsScope, none⟩]
        = .error (.interpErr "Division by zero" 1 0)
      ∧ applyBuiltin 11 .andB [progDivZero] (nID "w") 0 [⟨builtinsScope, none⟩]
        = .error (.interpErr "Division by zero" 1 0) :=
  claim_C6_and_or_eager.1 10 [progDivZero] (nID "w") 0 [⟨builtinsScope, none⟩]
    (.interpErr "Division by zero" 1 0) rfl

/-- Claim C7: a `reduce` call with three argument nodes folds left over the
RAW child nodes of the third argument: the accumulator starts at the
evaluated init expression and each reduceLoop step evaluates a call of the
fn expression on the current element node and the accumulator wrapped as a
node carrying the init expression's original tag.  Concretely
`(reduce + 0 [1 2 3])` is 6, and `(reduce + 0 [(+ 1 1) 2])` is 4 (the
element nodes are evaluated by the fold itself). -/
theorem claim_C7_reduce_left_fold :
    (∀ (fuel : Nat) (f init xsN node : Node) (elems : List Node) (ctx : Nat) (heap : Heap)
        (r0 : Val) (h : Heap),
        xsN.value = .pnodes elems →
        evaluate fuel init ctx heap = .ok (r0, h) →
        applyBuiltin (fuel + 1) .reduceB [f, init, xsN] node ctx heap
          = reduceLoop fuel f init.tag node elems r0 ctx h)
    ∧ runProgram [progReduceSum] = .ok (.vint 6)
    ∧ runProgram [progReduceRaw] = .ok (.vint 4) := by
  refine ⟨?_, rfl, rfl⟩
  intro fuel f init xsN node elems ctx heap r0 h hx hi
  simp [applyBuiltin, hi, hx]

/-- Witness for claim C7 at concrete input. -/
theorem claim_C7_witness :
    applyBuiltin 2 .reduceB [nID "f", nInt 0, nVec [nInt 1]] (nID "w") 0 []
      = reduceLoop 1 (nID "f") (nVec [nInt 1]).tag (nID "w") [nInt 1] (.vint 0) 0 [] :=
  claim_C7_reduce_left_fold.1 1 (nID "f") (nInt 0) (nVec [nInt 1]) (nID "w") [nInt 1] 0 []
    (.vint 0) [] rfl rfl

/-- Witness for claim C9 at concrete input: a caller scope binding `map` to
0 resolves `map` exactly as the empty caller scope does. -/
theorem claim_C9_witness :
    scopeGet? (initialScope [("map", .vint 0)] []) "map"
      = scopeGet? (initialScope [] []) "map" :=
  claim_C9_initial_scope_overrides.1 [("map", .vint 0)] [] [] "map" (Or.inl (by decide))

/-- Witness for claim C10 at concrete input: the two-statement program
`1 2` returns the last value, 2. -/
theorem claim_C10_witness :
    ∃ v, [Val.vint 1, Val.vint 2].getLast? = some v
      ∧ interpret [] [nInt 1, nInt 2] [] 64 = .ok v :=
  claim_C10_interpret_needs_nonempty.2 [] [] [nInt 1, nInt 2] 64 [.vint 1, .vint 2]
    [⟨initialScope [] [], none⟩] (by simp) rfl

/-! ### Closure-invocation lemmas -/

/-- The scope fn_fn's binding loop builds for plain formals `qs` bound to
values `vs`. -/
def mkScope (qs : List String) (vs : List Val) : Scope :=
  (qs.zip vs).foldl (fun sc kv => scopeSet sc kv.1 kv.2) []

/-- A node whose evaluation in context `ctx` is pure: any positive fuel and
any heap give the same value and leave the heap untouched (literals and
`any`-wrapped values are like this). -/
def PureEval (a : Node) (ctx : Nat) (v : Val) : Prop :=
  ∀ (k : Nat) (h : Heap), evaluate (k + 1) a ctx h = .ok (v, h)

/-- evaluate_all over pure argument nodes yields their values and leaves
the heap untouched. -/
theorem evaluateAll_pure {ctx : Nat} :
    ∀ {args : List Node} {vs : List Val},
      List.Forall₂ (fun a v => PureEval a ctx v) args vs →
      ∀ (fuel : Nat) (heap : Heap), args.length < fuel →
        evaluateAll fuel args ctx heap = .ok (vs, heap) := by
  intro args vs hav
  induction hav with
  | nil =>
    intro fuel heap hfuel
    cases fuel with
    | zero => omega
    | succ f => rfl
  | cons ha hrest ih =>
    rename_i a v args' vs'
    intro fuel heap hfuel
    cases fuel with
    | zero => omega
    | succ f =>
      cases f with
      | zero => simp only [List.length_cons] at hfuel; omega
      | succ g =>
        simp only [evaluateAll, ha g heap, ih (g + 1) heap (by simp only [List.length_cons] at hfuel; omega)]

/-- The fn_fn binding loop on a parameter list of plain identifiers (no
rest marker), with one pure caller argument node per formal: it evaluates
each argument in the caller's context, binds the formals in order, never
breaks, and leaves the heap untouched. -/
theorem bindLoop_plain {callerCtx : Nat} :
    ∀ {params : List Node} {qs : List String},
      List.Forall₂ (fun (p : Node) (s : String) => p.value = .pstr s) params qs →
      (∀ s ∈ qs, s ≠ "&") →
      ∀ {args : List Node} {vs : List Val},
        List.Forall₂ (fun a v => PureEval a callerCtx v) args vs →
        args.length = params.length →
        ∀ (total i : Nat) (scope : Scope) (heap : Heap) (fuel : Nat),
          params.length < fuel →
          bindLoop fuel total params i args callerCtx scope heap
            = .ok (((qs.zip vs).foldl (fun sc kv => scopeSet sc kv.1 kv.2) scope, none), heap) := by
  intro params qs hpq
  induction hpq with
  | nil =>
    intro hq args vs hav hlen total i scope heap fuel hfuel
    cases hav with
    | nil =>
      cases fuel with
      | zero => omega
      | succ f => rfl
    | cons ha hrest => simp at hlen
  | cons hp hrest ih =>
    rename_i p s params' qs'
    intro hq args vs hav hlen total i scope heap fuel hfuel
    cases hav with
    | nil => simp at hlen
    | cons ha hrest2 =>
      rename_i a v args' vs'
      cases fuel with
      | zero => omega
      | succ f =>
      cases f with
      | zero => simp only [List.length_cons] at hfuel; omega
      | succ g =>
        have hs : ¬(s = "&") := hq s (by simp)
        have hq' : ∀ t ∈ qs', t ≠ "&" := fun t ht => hq t (List.mem_cons_of_mem s ht)
        have hlen' : args'.length = params'.length := by
          simp only [List.length_cons] at hlen; omega
        simp only [bindLoop, hp, if_neg hs, ha g heap,
          ih hq' hrest2 hlen' total (i + 1) (scopeSet scope s v) heap (g + 1)
            (by simp only [List.length_cons] at hfuel; omega)]
        simp [List.zip_cons_cons]

/-- Claim C1's core: invoking a closure whose formals are all plain
identifiers, with one pure caller argument node per formal, evaluates each
argument in the CALLER's context, allocates exactly ONE fresh frame whose
scope binds the formals to the argument values and whose parent is the
CAPTURED defining context (not the caller's), and evaluates the body there. -/
theorem callClosure_plain {callerCtx : Nat} {params : List Node} {qs : List String}
    (hpq : List.Forall₂ (fun (p : Node) (s : String) => p.value = .pstr s) params qs)
    (hq : ∀ s ∈ qs, s ≠ "&") (hne : qs ≠ [])
    {args : List Node} {vs : List Val}
    (hav : List.Forall₂ (fun a v => PureEval a callerCtx v) args vs)
    (hlen : args.length = params.length)
    (body defNode : Node) (defCtx : Nat) (heap : Heap) (fuel : Nat)
    (hfuel : params.length < fuel) :
    callClosure (fuel + 1) params body defCtx defNode args callerCtx heap
      = evaluate fuel body heap.length (heap ++ [⟨mkScope qs vs, some defCtx⟩]) := by
  cases hpq with
  | nil => exact absurd rfl hne
  | cons hp hrest =>
    rename_i p s params' qs'
    simp only [callClosure]
    rw [bindLoop_plain (List.Forall₂.cons hp hrest) hq hav hlen
      (p :: params').length 0 [] heap fuel hfuel]
    have hgt : ¬((p :: params').length > (p :: params').length - 1 + 2) := by
      simp only [List.length_cons]
      omega
    simp [hgt, mkScope]

/-- Claim C1: invoking a user function made by `fn` creates exactly one
fresh frame (appended to the heap) whose parent is the context captured at
definition time — not the caller's — while each caller argument node is
evaluated in the caller's context (the `PureEval _ callerCtx _` premises).
Consequently, in the concrete program `(defn make [x] (fn [z] x))` followed
by `(let [x 99] ((make 1) 5))`, the returned closure still resolves the
defining scope's `x` (1) after `make` has returned, unaffected by the
caller-scope binding `x = 99`. -/
theorem claim_C1_fn_invocation_lexical_scope :
    (∀ (fuel : Nat) (params : List Node) (qs : List String) (body defNode : Node)
        (defCtx callerCtx : Nat) (args : List Node) (vs : List Val) (heap : Heap),
        List.Forall₂ (fun (p : Node) (s : String) => p.value = .pstr s) params qs →
        (∀ s ∈ qs, s ≠ "&") →
        qs ≠ [] →
        List.Forall₂ (fun a v => PureEval a callerCtx v) args vs →
        args.length = params.length →
        params.length < fuel →
        callClosure (fuel + 1) params body defCtx defNode args callerCtx heap
          = evaluate fuel body heap.length (heap ++ [⟨mkScope qs vs, some defCtx⟩]))
    ∧ runProgram progClosureDemo = .ok (.vint 1) := by
  refine ⟨?_, rfl⟩
  intro fuel params qs body defNode defCtx callerCtx args vs heap hpq hq hne hav hlen hfuel
  exact callClosure_plain hpq hq hne hav hlen body defNode defCtx heap fuel hfuel

/-- Witness for claim C1 at concrete input: a one-parameter closure called
on the literal 7 pushes one frame binding x to 7 with the captured parent 0
and evaluates its body there. -/
theorem claim_C1_witness :
    callClosure 5 [nID "x"] (nID "x") 0 (nID "d") [nInt 7] 1 [⟨[], none⟩, ⟨[], some 0⟩]
      = evaluate 4 (nID "x") 2
          ([⟨[], none⟩, ⟨[], some 0⟩] ++ [⟨mkScope ["x"] [.vint 7], some 0⟩]) :=
  claim_C1_fn_invocation_lexical_scope.1 4 [nID "x"] ["x"] (nID "x") (nID "d") 0 1
    [nInt 7] [.vint 7] [⟨[], none⟩, ⟨[], some 0⟩]
    (List.Forall₂.cons rfl List.Forall₂.nil)
    (by decide)
    (by decide)
    (List.Forall₂.cons (fun k h => rfl) List.Forall₂.nil)
    rfl
    (by decide)

/-- Each `any`-wrapped pre-computed value is a pure argument node. -/
theorem forall₂_anyNodes (vs : List Val) (l : Loc) (ctx : Nat) :
    List.Forall₂ (fun a v => PureEval a ctx v)
      (vs.map (fun x => Node.mk .any (.pval x) l)) vs := by
  induction vs with
  | nil => exact List.Forall₂.nil
  | cons v vs ih => exact List.Forall₂.cons (fun k h => rfl) ih

/-- Claim C8, counterexample: the claimed equivalence fails for the
function value `if` — `(apply if [true 1 (/ 1 0)])` pre-evaluates the
sequence literal and raises DivisionByZero, while the direct call
`(if true 1 (/ 1 0))` evaluates to 1. -/
theorem claim_C8_counterexample :
    runProgram [progApplyIf] = .error (.interpErr "Division by zero" 1 0)
      ∧ runProgram [progIfTrueDiv] = .ok (.vint 1)
      ∧ runProgram [progApplyIf] ≠ runProgram [progIfTrueDiv] := by
  refine ⟨rfl, rfl, ?_⟩
  intro h
  rw [show runProgram [progApplyIf] = .error (.interpErr "Division by zero" 1 0) from rfl,
    show runProgram [progIfTrueDiv] = .ok (.vint 1) from rfl] at h
  exact Except.noConfusion h

/-- Evaluating a call node whose callee evaluates to a function value
dispatches applyF on the raw argument nodes (handle_call). -/
theorem evaluate_call_step (fuel : Nat) (callee : Node) (args2 : List Node) (loc : Loc)
    (ctx : Nat) (heap : Heap) (cv : Val) (h1 : Heap)
    (hfv : evaluate fuel callee ctx heap = .ok (cv, h1)) (hfn : isFunction cv = true) :
    evaluate (fuel + 1) (.mk .call (.pnodes (callee :: args2)) loc) ctx heap
      = applyF fuel cv args2 (.mk .call (.pnodes (callee :: args2)) loc) ctx h1 := by
  show (match evaluate fuel callee ctx heap with
        | .error e => .error e
        | .ok (fv, hh) =>
          if isFunction fv then
            applyF fuel fv args2 (.mk .call (.pnodes (callee :: args2)) loc) ctx hh
          else
            .error (mkInterpErr (payloadToMsg callee.value ++ " is not a function")
              (.mk .call (.pnodes (callee :: args2)) loc)))
      = applyF fuel cv args2 (.mk .call (.pnodes (callee :: args2)) loc) ctx h1
  rw [hfv]
  simp [hfn]

/-- Evaluating a vec node with a known evaluate_all outcome. -/
theorem evaluate_vec_step (fuel : Nat) (ns : List Node) (loc : Loc) (ctx : Nat) (heap : Heap)
    (vs : List Val) (h : Heap) (hall : evaluateAll fuel ns ctx heap = .ok (vs, h)) :
    evaluate (fuel + 1) (.mk .vec (.pnodes ns) loc) ctx heap = .ok (.vlist vs, h) := by
  show (match evaluateAll fuel ns ctx heap with
        | .error e => .error e
        | .ok (ws, hh) => .ok (.vlist ws, hh)) = (.ok (.vlist vs, h) : Res Val)
  rw [hall]

/-- fn_apply with a sequence expression evaluating to a list: wrap each
value as an `any` node and evaluate the derived call node. -/
theorem applyBuiltin_apply_step (fuel : Nat) (f seqNode node : Node) (ctx : Nat) (heap : Heap)
    (vs : List Val) (h : Heap) (hseq : evaluate fuel seqNode ctx heap = .ok (.vlist vs, h)) :
    applyBuiltin (fuel + 1) .applyB [f, seqNode] node ctx heap
      = evaluate fuel
          (wrap node .call (.pnodes (f :: vs.map (fun x => wrap node .any (.pval x))))) ctx h := by
  show (match evaluate fuel seqNode ctx heap with
        | .error e => .error e
        | .ok (sv, hh) =>
          match pyIter sv with
          | .error e => .error e
          | .ok xs =>
            evaluate fuel
              (wrap node .call (.pnodes (f :: xs.map (fun x => wrap node .any (.pval x))))) ctx hh)
      = evaluate fuel
          (wrap node .call (.pnodes (f :: vs.map (fun x => wrap node .any (.pval x))))) ctx h
  rw [hseq]
  rfl

/-- Claim C8, amended: the apply / direct-call equivalence holds for USER
functions (closures with plain formals), given pure argument expressions
and matching arity — both `(apply f [a1 ... an])` and `(f a1 ... an)`
evaluate the arguments in the same context, bind the formals in one fresh
frame under the captured defining context, and return the body's result.
It does not hold for raw-node special forms such as `if` (counterexample). -/
theorem claim_C8_apply_equals_direct_call_for_closures :
    ∀ (params : List Node) (qs : List String) (body fExpr defNode : Node)
      (defCtx ctx : Nat) (args : List Node) (vs : List Val) (heap : Heap) (r : Val × Heap),
      List.Forall₂ (fun (p : Node) (s : String) => p.value = .pstr s) params qs →
      (∀ s ∈ qs, s ≠ "&") →
      qs ≠ [] →
      (∀ (k : Nat) (h : Heap),
          evaluate (k + 1) fExpr ctx h = .ok (.closure params body defCtx defNode, h)) →
      List.Forall₂ (fun a v => PureEval a ctx v) args vs →
      args.length = params.length →
      (∀ j : Nat,
          evaluate (j + 1) body heap.length (heap ++ [⟨mkScope qs vs, some defCtx⟩]) = .ok r) →
      ∀ b : Nat, params.length + 1 < b → args.length < b →
        evaluate (b + 6) (nCall (nAny (.builtin .applyB) :: fExpr :: [nVec args])) ctx heap = .ok r
          ∧ evaluate (b + 3) (nCall (fExpr :: args)) ctx heap = .ok r := by
  intro params qs body fExpr defNode defCtx ctx args vs heap r hpq hq hne hf hav hlen hbody b hb1 hb2
  obtain ⟨k, rfl⟩ : ∃ k, b = k + 1 + 1 := ⟨b - 2, by omega⟩
  have hvl : args.length = vs.length := List.Forall₂.length_eq hav
  have hAll : evaluateAll (k + 1 + 1 + 1 + 1) args ctx heap = .ok (vs, heap) :=
    evaluateAll_pure hav (k + 1 + 1 + 1 + 1) heap (by omega)
  have hAny : List.Forall₂ (fun a v => PureEval a ctx v)
      (vs.map (fun x => Node.mk .any (.pval x) L0)) vs := forall₂_anyNodes vs L0 ctx
  have hCCapply : callClosure (k + 1 + 1 + 1) params body defCtx defNode
      (vs.map (fun x => Node.mk .any (.pval x) L0)) ctx heap
      = evaluate (k + 1 + 1) body heap.length (heap ++ [⟨mkScope qs vs, some defCtx⟩]) :=
    callClosure_plain hpq hq hne hAny (by simp [hvl ▸ hlen]) body defNode defCtx heap
      (k + 1 + 1) (by omega)
  have hCCdirect : callClosure (k + 1 + 1 + 1) params body defCtx defNode args ctx heap
      = evaluate (k + 1 + 1) body heap.length (heap ++ [⟨mkScope qs vs, some defCtx⟩]) :=
    callClosure_plain hpq hq hne hav hlen body defNode defCtx heap (k + 1 + 1) (by omega)
  constructor
  · show evaluate (k + 7 + 1) (nCall (nAny (.builtin .applyB) :: fExpr :: [nVec args])) ctx heap
      = .ok r
    calc evaluate (k + 7 + 1) (nCall (nAny (.builtin .applyB) :: fExpr :: [nVec args])) ctx heap
        = applyF (k + 7) (.builtin .applyB) [fExpr, nVec args]
            (nCall (nAny (.builtin .applyB) :: fExpr :: [nVec args])) ctx heap :=
          evaluate_call_step (k + 7) (nAny (.builtin .applyB)) [fExpr, nVec args] L0 ctx heap
            (.builtin .applyB) heap rfl rfl
      _ = applyBuiltin (k + 5 + 1) .applyB [fExpr, nVec args]
            (nCall (nAny (.builtin .applyB) :: fExpr :: [nVec args])) ctx heap := rfl
      _ = evaluate (k + 5)
            (wrap (nCall (nAny (.builtin .applyB) :: fExpr :: [nVec args])) .call
              (.pnodes (fExpr :: vs.map (fun x =>
                wrap (nCall (nAny (.builtin .applyB) :: fExpr :: [nVec args])) .any (.pval x)))))
            ctx heap :=
          applyBuiltin_apply_step (k + 5) fExpr (nVec args)
            (nCall (nAny (.builtin .applyB) :: fExpr :: [nVec args])) ctx heap vs heap
            (evaluate_vec_step (k + 1 + 1 + 1 + 1) args L0 ctx heap vs heap hAll)
      _ = applyF (k + 4) (.closure params body defCtx defNode)
            (vs.map (fun x => Node.mk .any (.pval x) L0))
            (.mk .call (.pnodes (fExpr :: vs.map (fun x => Node.mk .any (.pval x) L0))) L0)
            ctx heap :=
          evaluate_call_step (k + 4) fExpr (vs.map (fun x => Node.mk .any (.pval x) L0)) L0
            ctx heap (.closure params body defCtx defNode) heap (hf (k + 3) heap) rfl
      _ = callClosure (k + 1 + 1 + 1) params body defCtx defNode
            (vs.map (fun x => Node.mk .any (.pval x) L0)) ctx heap := rfl
      _ = evaluate (k + 1 + 1) body heap.length
            (heap ++ [⟨mkScope qs vs, some defCtx⟩]) := hCCapply
      _ = .ok r := hbody (k + 1)
  · show evaluate (k + 4 + 1) (nCall (fExpr :: args)) ctx heap = .ok r
    calc evaluate (k + 4 + 1) (nCall (fExpr :: args)) ctx heap
        = applyF (k + 4) (.closure params body defCtx defNode) args
            (nCall (fExpr :: args)) ctx heap :=
          evaluate_call_step (k + 4) fExpr args L0 ctx heap
            (.closure params body defCtx defNode) heap (hf (k + 3) heap) rfl
      _ = callClosure (k + 1 + 1 + 1) params body defCtx defNode args ctx heap := rfl
      _ = evaluate (k + 1 + 1) body heap.length
            (heap ++ [⟨mkScope qs vs, some defCtx⟩]) := hCCdirect
      _ = .ok r := hbody (k + 1)

/-- Witness for claim C8 at concrete input: applying a one-parameter
closure with constant body 42 to `[7]` and calling it directly on 7 give
the same result. -/
theorem claim_C8_witness :
    evaluate 9
        (nCall [nAny (.builtin .applyB), nAny (.closure [nID "x"] (nInt 42) 0 (nID "d")),
          nVec [nInt 7]]) 0 [⟨[], none⟩]
        = .ok (.vint 42, [⟨[], none⟩] ++ [⟨mkScope ["x"] [.vint 7], some 0⟩])
      ∧ evaluate 6 (nCall [nAny (.closure [nID "x"] (nInt 42) 0 (nID "d")), nInt 7]) 0 [⟨[], none⟩]
        = .ok (.vint 42, [⟨[], none⟩] ++ [⟨mkScope ["x"] [.vint 7], some 0⟩]) :=
  claim_C8_apply_equals_direct_call_for_closures [nID "x"] ["x"] (nInt 42)
    (nAny (.closure [nID "x"] (nInt 42) 0 (nID "d"))) (nID "d") 0 0 [nInt 7] [.vint 7]
    [⟨[], none⟩] (.vint 42, [⟨[], none⟩] ++ [⟨mkScope ["x"] [.vint 7], some 0⟩])
    (List.Forall₂.cons rfl List.Forall₂.nil)
    (by decide) (by decide)
    (fun _ _ => rfl)
    (List.Forall₂.cons (fun _ _ => rfl) List.Forall₂.nil)
    rfl
    (by intro j; rfl)
    3 (by decide) (by decide)

end Bedlam
